import Mathlib

/-!
Verification of the display/control state manager of `ddc_bright`
(`src/display.rs`, `src/main.rs`), as a shallow embedding:
`u16` values are `Nat`, `i16` values are `Int` with explicit wrapping
(release-mode two's-complement semantics), Rust panics (`unwrap` on a
failed hardware call, `Vec::remove` on an empty vector) are `Option` /
`Except` failures, and the producer/worker concurrency of
`DisplayManager` is a small-step semantics over explicit event traces.
-/

namespace DdcBright

/-- The `Control` enum of `display.rs` (`BRIGHTNESS = 0x10`, `CONTRAST = 0x12`). -/
inductive Control
  | BRIGHTNESS
  | CONTRAST
deriving DecidableEq

/-- The VCP feature code of a control (the enum discriminant in `display.rs`). -/
def Control.code : Control → Nat
  | .BRIGHTNESS => 0x10
  | .CONTRAST => 0x12

/-- `Control::get_name` from `display.rs`. -/
def Control.get_name : Control → String
  | .BRIGHTNESS => "Brightness"
  | .CONTRAST => "Contrast"

/-- `ALL_CONTROLS` from `display.rs`, in source order. -/
def ALL_CONTROLS : List Control := [.BRIGHTNESS, .CONTRAST]

/-- Rust `v as i16` applied to a `u16` value `v`: two's-complement
reinterpretation of the low 16 bits. -/
def u16_as_i16 (v : Nat) : Int :=
  if v % 65536 < 32768 then ((v % 65536 : Nat) : Int)
  else ((v % 65536 : Nat) : Int) - 65536

/-- Wrap an integer into the `i16` range `[-32768, 32767]` (two's-complement
overflow semantics of release builds). -/
def i16_wrap (x : Int) : Int := (x + 32768) % 65536 - 32768

/-- Rust `i16` addition with release-mode wrapping overflow semantics. -/
def i16_add (a b : Int) : Int := i16_wrap (a + b)

/-- Rust `x as u16` applied to an `i16` value. -/
def i16_as_u16 (x : Int) : Nat := (x % 65536).toNat

/-- The new cached value computed by `DisplayManager::queue_change`
(`display.rs` line 125):
`max(min(control.value as i16 + value, 100), 0) as u16`. -/
def queueChangeValue (v : Nat) (d : Int) : Nat :=
  i16_as_u16 (max (min (i16_add (u16_as_i16 v) d) 100) 0)

/-- Modelled from the spec's words, for comparison with `queueChangeValue`:
the ideal `clamp(v + d, 0, 100)` over unbounded integers. -/
def specClamp (v : Nat) (d : Int) : Int := max (min ((v : Int) + d) 100) 0

/-- The mutable state shared between the producer (`queue_change`) and the
worker thread of `DisplayManager`, projected onto one `(display, control)`
pair: `cached` is `controller.value`; `pendingLocal` is the producer's
`control.clone()` value between the clamp (line 125) and the `changes.push`
(lines 128-131); `signals` is the number of `()` messages buffered in the
mpsc channel; `fifo` is the sequence of target values carried by the queued
`Change`s; `committed` is the sequence of values already written to hardware
by `MyDisplay::set`. -/
structure PState where
  cached : Nat
  pendingLocal : Option Nat
  signals : Nat
  fifo : List Nat
  committed : List Nat
deriving DecidableEq

/-- Atomic events of the producer/worker system. `send` is line 117
(`tx_queue.send(())`); `clamp d` is lines 124-125 (executed under the
controller's write lock); `append` is lines 127-131 (executed under the
`changes` lock); `wake ok` is one worker-loop iteration (lines 97-106):
`recv`, then `changes.remove(0)`, then `display.set`, whose hardware
outcome is `ok`. -/
inductive PEv
  | send
  | clamp (d : Int)
  | append
  | wake (ok : Bool)
deriving DecidableEq

/-- One atomic step of the system. `none` models a panic: the worker's
`changes.remove(0)` on an empty FIFO, or the `unwrap` in `MyDisplay::set`
when the hardware write fails. A `clamp` while a local clone is pending, or
an `append` without one, cannot occur in a trace of the single sequential
producer and is also mapped to `none`. Blocking of `recv` is not enforced
(a `wake` with `signals = 0` is allowed as a step); theorems that exhibit
concrete traces only use wakes with a signal pending. -/
def pstep (s : PState) : PEv → Option PState
  | .send => some { s with signals := s.signals + 1 }
  | .clamp d =>
    match s.pendingLocal with
    | some _ => none
    | none =>
      some { s with cached := queueChangeValue s.cached d,
                    pendingLocal := some (queueChangeValue s.cached d) }
  | .append =>
    match s.pendingLocal with
    | none => none
    | some v => some { s with fifo := s.fifo ++ [v], pendingLocal := none }
  | .wake ok =>
    match s.fifo with
    | [] => none
    | v :: rest =>
      if ok then
        some { s with signals := s.signals - 1, fifo := rest,
                      committed := s.committed ++ [v] }
      else none

/-- Run a trace of events; `none` as soon as any step panics. -/
def prun (s : PState) : List PEv → Option PState
  | [] => some s
  | e :: es =>
    match pstep s e with
    | none => none
    | some s2 => prun s2 es

/-- Quiescent initial state with cached value `v`. -/
def initState (v : Nat) : PState := ⟨v, none, 0, [], []⟩

/-- The deltas clamped by a trace, in order. -/
def clampsOf : List PEv → List Int
  | [] => []
  | PEv.clamp d :: es => d :: clampsOf es
  | _ :: es => clampsOf es

/-- The sequence of cumulative clamped cached values produced by applying
the deltas in order, starting from cached value `v`. -/
def cumValues (v : Nat) : List Int → List Nat
  | [] => []
  | d :: ds => queueChangeValue v d :: cumValues (queueChangeValue v d) ds

/-- The sequence of atomic actions performed by one call of
`DisplayManager::queue_change` (`display.rs` lines 116-132), in source
order: the channel send (line 117, absent as an event when the send fails,
which the code only reports with `eprintln`), then the clamp-and-cache
update (lines 124-125), then the FIFO append (lines 127-131). -/
def queue_change_events (sendOk : Bool) (d : Int) : List PEv :=
  (if sendOk then [PEv.send] else []) ++ [PEv.clamp d, PEv.append]

/-- Modelled from the spec's words, for comparison: the order of steps the
spec claims for `queue_change` — clamp-and-cache first, append second,
signal last. -/
def queue_change_events_spec (d : Int) : List PEv :=
  [PEv.clamp d, PEv.append, PEv.send]

/-- `DisplayManager::queue_change` as a whole call acting on the shared
state, parameterised by whether the channel send succeeds. -/
def queue_change (sendOk : Bool) (s : PState) (d : Int) : Option PState :=
  prun s (queue_change_events sendOk d)

/-- The `ddc_hi` display info used by `DisplayManager::refresh`
(`display.rs` lines 139-144): optional model name, optional serial
number, and the opaque id. -/
structure DisplayInfo where
  model_name : Option String
  serial_number : Option String
  id : String
deriving DecidableEq

/-- One enumerated physical display as the hardware presents it to the
core: its info, and the outcome of `get_vcp_feature` for each control
(`none` models an `Err` result, which `MyDisplay::get` unwraps). -/
structure HwDisplay where
  info : DisplayInfo
  brightnessValue : Option Nat
  contrastValue : Option Nat
deriving DecidableEq

/-- `Handle::get_vcp_feature(control as u8)` outcome on a display. -/
def get_vcp_feature (hw : HwDisplay) : Control → Option Nat
  | .BRIGHTNESS => hw.brightnessValue
  | .CONTRAST => hw.contrastValue

/-- The in-memory `MyDisplay` of `display.rs`: name plus the cached value
of each of the two controls of `ALL_CONTROLS`. -/
structure MyDisplay where
  name : String
  brightness : Nat
  contrast : Nat
deriving DecidableEq

/-- `MyDisplay::new` (`display.rs` lines 38-55): every control's cached
value starts at 0. -/
def MyDisplay.new (name : String) : MyDisplay := ⟨name, 0, 0⟩

/-- Read one control's cached value. -/
def getValue (d : MyDisplay) : Control → Nat
  | .BRIGHTNESS => d.brightness
  | .CONTRAST => d.contrast

/-- Store one control's cached value (`controller.value = value`). -/
def setValue (d : MyDisplay) : Control → Nat → MyDisplay
  | .BRIGHTNESS, v => { d with brightness := v }
  | .CONTRAST, v => { d with contrast := v }

/-- `MyDisplay::get` (`display.rs` lines 65-68): reads the hardware value
and unwraps; `none` models the panic on a failed read. -/
def MyDisplay.get (hw : HwDisplay) (c : Control) : Option Nat :=
  get_vcp_feature hw c

/-- The `for control in ALL_CONTROLS` loop of `MyDisplay::load`
(`display.rs` lines 57-63): each control's raw hardware value is stored,
unclamped; the first failed read panics (propagated as `none`). -/
def loadControls (hw : HwDisplay) (d : MyDisplay) : List Control → Option MyDisplay
  | [] => some d
  | c :: cs =>
    match MyDisplay.get hw c with
    | none => none
    | some v => loadControls hw (setValue d c v) cs

/-- `MyDisplay::load`. -/
def MyDisplay.load (hw : HwDisplay) (d : MyDisplay) : Option MyDisplay :=
  loadControls hw d ALL_CONTROLS

/-- The name resolution in `DisplayManager::refresh` (`display.rs` lines
139-144): `model_name.unwrap_or_else(|| serial_number.unwrap_or_else(|| id))`. -/
def resolveName (info : DisplayInfo) : String :=
  info.model_name.getD (info.serial_number.getD info.id)

/-- One iteration of the `for display in Display::enumerate()` loop of
`refresh` (`display.rs` lines 136-149): construct `MyDisplay::new` with the
resolved name, then `display.load()`. -/
def loadDisplay (hw : HwDisplay) : Option MyDisplay :=
  MyDisplay.load hw (MyDisplay.new (resolveName hw.info))

/-- The enumeration loop of `refresh`, pushing each loaded display.
`Except.error st` models the panic of an unwrapped failed read escaping
`refresh` while `self.displays` is left holding `st`. -/
def refreshGo (acc : List MyDisplay) : List HwDisplay → Except (List MyDisplay) (List MyDisplay)
  | [] => .ok acc
  | hw :: rest =>
    match loadDisplay hw with
    | none => .error acc
    | some d => refreshGo (acc ++ [d]) rest

/-- `DisplayManager::refresh` (`display.rs` lines 134-152): it begins with
`self.displays.clear()`, discarding `prev` unconditionally, then rebuilds
from the enumeration; its `Result` return value is always `Ok`, and the
only failure mode is the panic modelled by `Except.error`. -/
def refresh (prev : List MyDisplay) (hws : List HwDisplay) :
    Except (List MyDisplay) (List MyDisplay) :=
  refreshGo [] hws

/-- When the cached value is representable in `i16` and the true sum stays
in the `i16` range, the code's 16-bit computation agrees with the ideal
clamp. -/
lemma queueChangeValue_eq_specClamp (v : Nat) (d : Int) (hv : v ≤ 32767)
    (h1 : -32768 ≤ (v : Int) + d) (h2 : (v : Int) + d ≤ 32767) :
    ((queueChangeValue v d : Nat) : Int) = specClamp v d := by
  have hm : v % 65536 = v := Nat.mod_eq_of_lt (by omega)
  simp only [queueChangeValue, specClamp, i16_as_u16, i16_add, i16_wrap,
    u16_as_i16, hm, min_def, max_def]
  split_ifs <;> omega

/-- The clamp of `queue_change` always lands in `[0, 100]`. -/
lemma queueChangeValue_le_100 (v : Nat) (d : Int) : queueChangeValue v d ≤ 100 := by
  simp only [queueChangeValue, i16_as_u16, i16_add, i16_wrap, u16_as_i16,
    min_def, max_def]
  split_ifs <;> omega

/-- Trace invariant of the producer/worker system: along any panic-free
trace, the committed values, followed by the queued values, followed by the
pending local clone, are exactly the cumulative clamped values of the
clamped deltas, appended to what was already there. -/
lemma prun_committed_fifo (tr : List PEv) : ∀ s s' : PState,
    prun s tr = some s' →
    s'.committed ++ s'.fifo ++ s'.pendingLocal.toList
      = s.committed ++ s.fifo ++ s.pendingLocal.toList
          ++ cumValues s.cached (clampsOf tr) := by
  induction tr with
  | nil =>
    intro s s' h
    simp only [prun, Option.some.injEq] at h
    subst h
    simp [clampsOf, cumValues]
  | cons e es ih =>
    intro s s' h
    cases e with
    | send =>
      simp only [prun, pstep] at h
      have h2 := ih _ _ h
      simpa [clampsOf] using h2
    | clamp d =>
      cases hp : s.pendingLocal with
      | some v => simp [prun, pstep, hp] at h
      | none =>
        simp only [prun, pstep, hp] at h
        have h2 := ih _ _ h
        simp only [clampsOf, cumValues, hp] at h2 ⊢
        rw [h2]
        simp
    | append =>
      cases hp : s.pendingLocal with
      | none => simp [prun, pstep, hp] at h
      | some v =>
        simp only [prun, pstep, hp] at h
        have h2 := ih _ _ h
        simp only [clampsOf, hp] at h2 ⊢
        rw [h2]
        simp
    | wake ok =>
      cases hf : s.fifo with
      | nil => simp [prun, pstep, hf] at h
      | cons v rest =>
        cases ok with
        | false => simp [prun, pstep, hf] at h
        | true =>
          simp only [prun, pstep, hf] at h
          have h2 := ih _ _ h
          simp only [clampsOf, hf] at h2 ⊢
          rw [h2]
          simp

/-- `setValue` never touches the display name. -/
lemma setValue_name (d : MyDisplay) (c : Control) (v : Nat) :
    (setValue d c v).name = d.name := by
  cases c <;> rfl

/-- The load loop never touches the display name. -/
lemma loadControls_name (cs : List Control) : ∀ (hw : HwDisplay) (d d' : MyDisplay),
    loadControls hw d cs = some d' → d'.name = d.name := by
  induction cs with
  | nil =>
    intro hw d d' h
    simp only [loadControls, Option.some.injEq] at h
    subst h
    rfl
  | cons c cs ih =>
    intro hw d d' h
    cases hg : MyDisplay.get hw c with
    | none => simp [loadControls, hg] at h
    | some v =>
      simp only [loadControls, hg] at h
      rw [ih _ _ _ h, setValue_name]

/-- A display admitted by the discovery loop carries the resolved name. -/
lemma loadDisplay_name (hw : HwDisplay) (d : MyDisplay)
    (h : loadDisplay hw = some d) : d.name = resolveName hw.info := by
  have := loadControls_name ALL_CONTROLS hw _ _ h
  simpa [MyDisplay.new] using this

/-- `MyDisplay::load` stores the raw, unclamped hardware values. -/
lemma load_raw_values (hw : HwDisplay) (d0 d : MyDisplay)
    (h : MyDisplay.load hw d0 = some d) :
    get_vcp_feature hw Control.BRIGHTNESS = some d.brightness ∧
    get_vcp_feature hw Control.CONTRAST = some d.contrast := by
  cases hb : get_vcp_feature hw Control.BRIGHTNESS with
  | none =>
    simp [MyDisplay.load, ALL_CONTROLS, loadControls, MyDisplay.get, hb] at h
  | some b =>
    cases hc : get_vcp_feature hw Control.CONTRAST with
    | none =>
      simp [MyDisplay.load, ALL_CONTROLS, loadControls, MyDisplay.get, hb, hc] at h
    | some c =>
      simp only [MyDisplay.load, ALL_CONTROLS, loadControls, MyDisplay.get,
        hb, hc, Option.some.injEq] at h
      subst h
      simp [setValue]

/-- If every display before `bad` loads and `bad` fails, the refresh loop
panics with the registry holding exactly the displays loaded so far. -/
lemma refreshGo_error_of (pre : List HwDisplay) :
    ∀ (acc : List MyDisplay) (bad : HwDisplay) (post : List HwDisplay),
    (∀ hw ∈ pre, (loadDisplay hw).isSome = true) → loadDisplay bad = none →
    refreshGo acc (pre ++ bad :: post)
      = Except.error (acc ++ pre.filterMap loadDisplay) := by
  induction pre with
  | nil =>
    intro acc bad post _ hbad
    simp [refreshGo, hbad]
  | cons hw pre ih =>
    intro acc bad post hpre hbad
    obtain ⟨d, hd⟩ := Option.isSome_iff_exists.mp (hpre hw (by simp))
    simp only [List.cons_append, refreshGo, hd]
    show refreshGo (acc ++ [d]) (pre ++ bad :: post) = _
    rw [ih (acc ++ [d]) bad post (fun x hx => hpre x (by simp [hx])) hbad]
    simp [List.filterMap_cons, hd]

/-- Along a successful refresh loop, the names of the resulting displays
are the resolved names of the enumerated hardware, in order. -/
lemma refreshGo_ok_names (hws : List HwDisplay) :
    ∀ (acc res : List MyDisplay), refreshGo acc hws = Except.ok res →
    res.map MyDisplay.name
      = acc.map MyDisplay.name ++ hws.map (fun hw => resolveName hw.info) := by
  induction hws with
  | nil =>
    intro acc res h
    simp only [refreshGo, Except.ok.injEq] at h
    subst h
    simp
  | cons hw rest ih =>
    intro acc res h
    cases hd : loadDisplay hw with
    | none => simp [refreshGo, hd] at h
    | some d =>
      simp only [refreshGo, hd] at h
      rw [ih _ _ h]
      simp [loadDisplay_name hw d hd]

/-- C1: for every sequence of deltas enqueued for the same (device,
control) in order, along every panic-free interleaving of producer and
worker steps that ends with the FIFO drained and no clone pending, the
sequence of values committed to hardware by the worker equals the sequence
of cumulative clamped cached values after each delta, in that exact order:
the worker always pops the oldest pending change, and each pending change
carries the already-clamped absolute target value computed at enqueue
time. -/
theorem fifo_commits_cumulative_clamps (v0 : Nat) (deltas : List Int)
    (tr : List PEv) (s' : PState)
    (hds : clampsOf tr = deltas)
    (hrun : prun (initState v0) tr = some s')
    (hfifo : s'.fifo = [])
    (hpend : s'.pendingLocal = none) :
    s'.committed = cumValues v0 deltas := by
  have h := prun_committed_fifo tr (initState v0) s' hrun
  simpa [initState, hfifo, hpend, hds] using h

/-- Witness for C1: the spec's own scenario — cached 50, deltas +70 then
-200; the worker commits 100 then 0, in that order. -/
theorem fifo_commits_cumulative_clamps_wit :
    (⟨0, none, 0, [], [100, 0]⟩ : PState).committed = cumValues 50 [70, -200] :=
  fifo_commits_cumulative_clamps 50 [70, -200]
    [PEv.send, PEv.clamp 70, PEv.append, PEv.wake true,
     PEv.send, PEv.clamp (-200), PEv.append, PEv.wake true]
    ⟨0, none, 0, [], [100, 0]⟩ (by decide) (by decide) rfl rfl

/-- C2 is false as stated: with cached value 50 (well inside `[0, 100]`)
and the valid `i16` delta 32767, the 16-bit sum wraps, so `queue_change`
stores 0 while `clamp(50 + 32767, 0, 100) = 100`. -/
theorem clamp_and_cache_cx :
    queueChangeValue 50 32767 = 0 ∧ Int.toNat (specClamp 50 32767) = 100 := by
  constructor
  · decide
  · decide

/-- C2 amended: whenever the cached value is representable in `i16` and
`v + d` stays in the `i16` range, one clamp-and-cache step stores exactly
`clamp(v + d, 0, 100)`, the stored value is in `[0, 100]`, and the pending
local clone (pushed into the FIFO by the subsequent append) carries that
same clamped absolute value. -/
theorem clamp_and_cache_correct (v : Nat) (d : Int)
    (hv : v ≤ 32767) (h1 : -32768 ≤ (v : Int) + d) (h2 : (v : Int) + d ≤ 32767) :
    ((queueChangeValue v d : Nat) : Int) = specClamp v d ∧
    queueChangeValue v d ≤ 100 ∧
    ∀ s : PState, s.cached = v → s.pendingLocal = none →
      pstep s (PEv.clamp d)
        = some { s with cached := queueChangeValue v d,
                        pendingLocal := some (queueChangeValue v d) } := by
  refine ⟨queueChangeValue_eq_specClamp v d hv h1 h2,
    queueChangeValue_le_100 v d, ?_⟩
  intro s hc hp
  obtain ⟨c, p, g, f, m⟩ := s
  simp only at hc hp
  subst hc
  subst hp
  rfl

/-- Witness for C2's amended theorem at cached value 50 and delta +70. -/
theorem clamp_and_cache_correct_wit :
    ((queueChangeValue 50 70 : Nat) : Int) = specClamp 50 70 ∧
    queueChangeValue 50 70 ≤ 100 ∧
    pstep (initState 50) (PEv.clamp 70) = some ⟨100, some 100, 0, [], []⟩ := by
  have h := clamp_and_cache_correct 50 70 (by decide) (by decide) (by decide)
  have hv : queueChangeValue 50 70 = 100 := by decide
  refine ⟨h.1, h.2.1, ?_⟩
  have h3 := h.2.2 (initState 50) rfl rfl
  rw [hv] at h3
  exact h3

/-- C9 is false in its out-of-bounds half: the claim asserts that outside
the stated bounds the computed value is never `clamp(v + d, 0, 100)`, but
at cached value 65535 (outside, since 65535 > 32767) and delta 101 the
wrapped computation stores 100, which coincides with the ideal clamp. -/
theorem i16_outside_bounds_cx :
    ¬ (65535 : Nat) ≤ 32767 ∧
    queueChangeValue 65535 101 = Int.toNat (specClamp 65535 101) := by
  constructor
  · decide
  · decide

/-- C9 amended: with `v ≤ 32767` and `-32768 ≤ v + d ≤ 32767` the stored
value is exactly `clamp(v + d, 0, 100)`; outside these bounds the 16-bit
computation can disagree with the ideal clamp (cached 40000 with delta 5
stores 0 while the ideal clamp is 100), but does not disagree on every
such input (cached 65535 with delta 101 stores 100, the ideal clamp). -/
theorem i16_arithmetic_behavior :
    (∀ (v : Nat) (d : Int), v ≤ 32767 → -32768 ≤ (v : Int) + d →
      (v : Int) + d ≤ 32767 → ((queueChangeValue v d : Nat) : Int) = specClamp v d) ∧
    queueChangeValue 40000 5 = 0 ∧ Int.toNat (specClamp 40000 5) = 100 ∧
    queueChangeValue 65535 101 = 100 ∧ Int.toNat (specClamp 65535 101) = 100 :=
  ⟨fun v d hv h1 h2 => queueChangeValue_eq_specClamp v d hv h1 h2,
   by decide, by decide, by decide, by decide⟩

/-- Witness for C9's amended theorem at cached value 30 and delta +20. -/
theorem i16_arithmetic_behavior_wit :
    ((queueChangeValue 30 20 : Nat) : Int) = specClamp 30 20 :=
  i16_arithmetic_behavior.1 30 20 (by decide) (by decide) (by decide)

/-- C3 fails on the code: because `queue_change` sends the channel signal
(line 117) before pushing the change (line 128), there is an interleaving
of a single enqueue in which the worker receives the signal — legitimately,
one signal is pending — and executes `changes.remove(0)` on the still-empty
FIFO, which panics. -/
theorem wake_before_append_pops_empty_fifo :
    pstep (initState 50) PEv.send = some ⟨50, none, 1, [], []⟩ ∧
    prun (initState 50) [PEv.send, PEv.wake true] = none := by
  constructor
  · rfl
  · rfl

/-- C4 is false as stated: the claimed order (clamp-and-cache first, append
second, signal last) is not the code's order; the code's first action in
`queue_change` is the channel send. -/
theorem queue_change_order_cx :
    queue_change_events true 1 ≠ queue_change_events_spec 1 ∧
    (queue_change_events true 1).head? = some PEv.send := by
  constructor
  · decide
  · decide

/-- C4 amended: `queue_change` performs its three steps in the order
signal first (line 117), clamp-and-cache second (lines 124-125), append
last (lines 127-131); in particular, after the first step the worker has
been signalled while the FIFO is still untouched. -/
theorem queue_change_actual_order :
    ∀ d : Int, queue_change_events true d = [PEv.send, PEv.clamp d, PEv.append]
      ∧ ∀ v : Nat, pstep (initState v) PEv.send = some ⟨v, none, 1, [], []⟩ := by
  intro d
  exact ⟨rfl, fun v => rfl⟩

/-- C5 is false as stated: after a failed hardware write the worker does
not continue — `MyDisplay::set` unwraps the error and panics the worker
thread, so with two queued changes (30 then 40) a failure on the first
leaves the run dead and 40 is never committed. -/
theorem failed_commit_cx :
    prun ⟨50, none, 2, [30, 40], []⟩ [PEv.wake false, PEv.wake true] = none := by
  decide

/-- C5 amended: when a queued hardware write fails, the `unwrap` in
`MyDisplay::set` panics the worker thread: the worker terminates and no
subsequent pending change is ever applied; the cached value set at enqueue
time is indeed not rolled back — a worker step never modifies the cached
value at all. -/
theorem failed_commit_kills_worker (s : PState) (v : Nat) (tl : List Nat)
    (rest : List PEv) (hf : s.fifo = v :: tl) :
    prun s (PEv.wake false :: rest) = none ∧
    (∀ (ok : Bool) (s' : PState), pstep s (PEv.wake ok) = some s' →
      s'.cached = s.cached) := by
  constructor
  · simp [prun, pstep, hf]
  · intro ok s' h
    cases ok with
    | false => simp [pstep, hf] at h
    | true =>
      have h2 : s' = { s with signals := s.signals - 1, fifo := tl,
                              committed := s.committed ++ [v] } := by
        simpa [pstep, hf] using h.symm
      rw [h2]

/-- Witness for C5's amended theorem: two queued changes, the first write
fails; the run dies, and a successful worker step leaves the cached value
untouched. -/
theorem failed_commit_kills_worker_wit :
    prun ⟨50, none, 2, [30, 40], []⟩ [PEv.wake false] = none ∧
    (⟨50, none, 1, [40], [30]⟩ : PState).cached = 50 := by
  have h := failed_commit_kills_worker ⟨50, none, 2, [30, 40], []⟩ 30 [40] [] rfl
  exact ⟨h.1, h.2 true ⟨50, none, 1, [40], [30]⟩ (by decide)⟩

/-- C10: when the channel send fails (the worker's receiving end is gone),
`queue_change` only prints the error and proceeds identically: it clamps
and stores the new cached value and appends the pending change to the FIFO,
returning normally to the caller; the send outcome only affects the signal
count. -/
theorem send_failure_ignored (s : PState) (d : Int)
    (hp : s.pendingLocal = none) :
    queue_change false s d
      = some ⟨queueChangeValue s.cached d, none, s.signals,
              s.fifo ++ [queueChangeValue s.cached d], s.committed⟩ ∧
    queue_change true s d
      = some ⟨queueChangeValue s.cached d, none, s.signals + 1,
              s.fifo ++ [queueChangeValue s.cached d], s.committed⟩ := by
  obtain ⟨c, p, g, f, m⟩ := s
  simp only at hp
  subst hp
  exact ⟨rfl, rfl⟩

/-- Witness for C10 at cached value 50 and delta +7. -/
theorem send_failure_ignored_wit :
    queue_change false ⟨50, none, 0, [], []⟩ 7 = some ⟨57, none, 0, [57], []⟩ ∧
    queue_change true ⟨50, none, 0, [], []⟩ 7 = some ⟨57, none, 1, [57], []⟩ := by
  have h := send_failure_ignored ⟨50, none, 0, [], []⟩ 7 rfl
  have hv : queueChangeValue 50 7 = 57 := by decide
  rw [hv] at h
  exact h

/-- C6 is false as stated: `refresh` begins with `self.displays.clear()`,
so when the single enumerated display fails its initial read, the panic
leaves the registry empty — the previous non-empty registry `[⟨"old",
10, 20⟩]` is not retained. -/
theorem refresh_discards_previous_cx :
    refresh [⟨"old", 10, 20⟩] [⟨⟨some "new", none, "id1"⟩, none, some 30⟩]
      = Except.error [] ∧
    ([] : List MyDisplay) ≠ [⟨"old", 10, 20⟩] := by
  constructor
  · rfl
  · decide

/-- C6 amended: if any control's initial hardware read fails during a
refresh, the unwrapped error panics out of `refresh`; the registry has
already been cleared, so it holds exactly the fully-loaded devices that
preceded the failing one — never its previous contents — and no
partially-initialized device is admitted (a device is pushed only after
its whole load succeeds). -/
theorem refresh_on_failure (prev : List MyDisplay) (pre : List HwDisplay)
    (bad : HwDisplay) (post : List HwDisplay)
    (hpre : ∀ hw ∈ pre, (loadDisplay hw).isSome = true)
    (hbad : loadDisplay bad = none) :
    refresh prev (pre ++ bad :: post) = Except.error (pre.filterMap loadDisplay) := by
  have h := refreshGo_error_of pre [] bad post hpre hbad
  simpa [refresh] using h

/-- Witness for C6's amended theorem: one good display, then one whose
contrast read fails; the registry ends holding only the good display, not
the previous one. -/
theorem refresh_on_failure_wit :
    refresh [⟨"old", 10, 20⟩]
        ([⟨⟨some "A", none, "i1"⟩, some 40, some 50⟩]
          ++ (⟨⟨none, some "S", "i2"⟩, some 1, none⟩ : HwDisplay) :: [])
      = Except.error [⟨"A", 40, 50⟩] := by
  have h := refresh_on_failure [⟨"old", 10, 20⟩]
    [⟨⟨some "A", none, "i1"⟩, some 40, some 50⟩]
    ⟨⟨none, some "S", "i2"⟩, some 1, none⟩ [] (by decide) (by decide)
  have hfm : List.filterMap loadDisplay
      [⟨⟨some "A", none, "i1"⟩, some 40, some 50⟩] = [⟨"A", 40, 50⟩] := by decide
  rw [hfm] at h
  exact h

/-- C7 is false as stated: `MyDisplay::load` stores the raw hardware value
unclamped, so a hardware read of 200 leaves a cached value of 200, outside
`[0, 100]`. -/
theorem cached_range_cx :
    MyDisplay.load ⟨⟨some "M", none, "i"⟩, some 200, some 30⟩ (MyDisplay.new "M")
      = some ⟨"M", 200, 30⟩ ∧ ¬ (200 : Nat) ≤ 100 := by
  constructor
  · rfl
  · decide

/-- C7 amended: the cached value is in `[0, 100]` after construction
(both controls start at 0) and after every clamp-and-cache step of
`queue_change`; worker commits never modify a cached value; but after the
initial load the cached values are the raw hardware values, so they lie in
`[0, 100]` only when the hardware reports values in that range. -/
theorem cached_value_range :
    (∀ n : String, (MyDisplay.new n).brightness = 0 ∧ (MyDisplay.new n).contrast = 0) ∧
    (∀ (v : Nat) (d : Int), queueChangeValue v d ≤ 100) ∧
    (∀ (s : PState) (ok : Bool) (s' : PState),
      pstep s (PEv.wake ok) = some s' → s'.cached = s.cached) ∧
    (∀ (hw : HwDisplay) (d0 d : MyDisplay), MyDisplay.load hw d0 = some d →
      get_vcp_feature hw Control.BRIGHTNESS = some d.brightness ∧
      get_vcp_feature hw Control.CONTRAST = some d.contrast) := by
  refine ⟨fun n => ⟨rfl, rfl⟩, fun v d => queueChangeValue_le_100 v d, ?_, ?_⟩
  · intro s ok s' h
    cases hf : s.fifo with
    | nil => simp [pstep, hf] at h
    | cons v tl =>
      cases ok with
      | false => simp [pstep, hf] at h
      | true =>
        have h2 : s' = { s with signals := s.signals - 1, fifo := tl,
                                committed := s.committed ++ [v] } := by
          simpa [pstep, hf] using h.symm
        rw [h2]
  · intro hw d0 d h
    exact load_raw_values hw d0 d h

/-- Witness for C7's amended theorem: new display, a concrete clamp, a
concrete successful worker step, and a concrete load with in-range reads. -/
theorem cached_value_range_wit :
    (MyDisplay.new "m").brightness = 0 ∧
    queueChangeValue 3 5 ≤ 100 ∧
    (⟨50, none, 0, [], [7]⟩ : PState).cached = 50 ∧
    get_vcp_feature ⟨⟨none, none, "x"⟩, some 60, some 70⟩ Control.BRIGHTNESS
      = some (⟨"x", 60, 70⟩ : MyDisplay).brightness := by
  refine ⟨(cached_value_range.1 "m").1, cached_value_range.2.1 3 5,
    cached_value_range.2.2.1 ⟨50, none, 1, [7], []⟩ true ⟨50, none, 0, [], [7]⟩
      (by decide), ?_⟩
  exact (cached_value_range.2.2.2 ⟨⟨none, none, "x"⟩, some 60, some 70⟩
    (MyDisplay.new "x") ⟨"x", 60, 70⟩ (by decide)).1

/-- C8: the device name stored in the registry is resolved by the fallback
chain — the model name when present, otherwise the serial number when
present, otherwise the opaque device id — and every display admitted by a
successful refresh carries the name so resolved from its enumeration
entry. -/
theorem device_name_fallback :
    (∀ (m : String) (s : Option String) (i : String),
      resolveName ⟨some m, s, i⟩ = m) ∧
    (∀ s i : String, resolveName ⟨none, some s, i⟩ = s) ∧
    (∀ i : String, resolveName ⟨none, none, i⟩ = i) ∧
    (∀ (prev res : List MyDisplay) (hws : List HwDisplay),
      refresh prev hws = Except.ok res →
      res.map MyDisplay.name = hws.map (fun hw => resolveName hw.info)) := by
  refine ⟨fun m s i => rfl, fun s i => rfl, fun i => rfl, ?_⟩
  intro prev res hws h
  have h2 := refreshGo_ok_names hws [] res h
  simpa using h2

/-- Witness for C8: each fallback case at concrete strings, and a concrete
one-display refresh whose admitted name is the resolved model name. -/
theorem device_name_fallback_wit :
    resolveName ⟨some "LG", none, "x"⟩ = "LG" ∧
    resolveName ⟨none, some "SN9", "x"⟩ = "SN9" ∧
    resolveName ⟨none, none, "rawid"⟩ = "rawid" ∧
    List.map MyDisplay.name [(⟨"A", 40, 50⟩ : MyDisplay)]
      = List.map (fun hw => resolveName hw.info)
          [(⟨⟨some "A", none, "i1"⟩, some 40, some 50⟩ : HwDisplay)] := by
  refine ⟨device_name_fallback.1 "LG" none "x",
    device_name_fallback.2.1 "SN9" "x",
    device_name_fallback.2.2.1 "rawid", ?_⟩
  exact device_name_fallback.2.2.2 [] [⟨"A", 40, 50⟩]
    [⟨⟨some "A", none, "i1"⟩, some 40, some 50⟩] rfl

end DdcBright
